import Mathlib

set_option autoImplicit false
set_option maxRecDepth 10000

/-!
Shallow embedding of the heap allocator in src/malloc.c (with src/malloc.h).

Memory is a finite map from header addresses (Nat) to header records; the
process-wide head_ptr / tail_ptr references and the program break are carried
in a state record.  All size_t arithmetic is Nat arithmetic reduced mod 2^64
exactly at the points where the C expressions are computed in size_t.
Addresses use the byte arithmetic of the source: the header of a block at
address a is followed by its payload at a + 32, and the next block starts at
a + 32 + size (sizeof(mem_header) = 32 on the modelled LP64 platform:
8 for size, 8 for bool free with padding, 8 + 8 for the two pointers).

sbrk is modelled by its effect on the break; each call site of _malloc takes
one Boolean per potential sbrk call telling whether that call succeeds
(sbrk in _free ignores its result in the source, so it is modelled as
always moving the break).
-/

namespace Malloc

/-- Modulus of size_t arithmetic: the code targets a 64-bit Linux platform. -/
def W64 : Nat := 2 ^ 64

/-- PAGE_SIZE from malloc.h, default branch. -/
def PAGE_SIZE : Nat := 4096

/-- ALIGNMENT_WIDTH from malloc.h. -/
def ALIGNMENT_WIDTH : Nat := 16

/-- sizeof(mem_header) on LP64: size_t + padded bool + two pointers. -/
def header_size : Nat := 32

/-- struct mem_header from malloc.h: size, free flag, prev and next pointers
(none models NULL). -/
structure mem_header where
  size : Nat
  free : Bool
  prev : Option Nat
  next : Option Nat
deriving DecidableEq

/-- Allocator state: the header memory (address-to-header map), the globals
head_ptr and tail_ptr from malloc.c, and the current program break. -/
structure Heap where
  mem : List (Nat × mem_header)
  head : Option Nat
  tail : Option Nat
  brk : Nat
deriving DecidableEq

/-- Association-list lookup of the header stored at address a. -/
def lookupH : List (Nat × mem_header) → Nat → Option mem_header
  | [], _ => none
  | (b, g) :: rest, a => if b = a then some g else lookupH rest a

/-- Store a header at address a (update in place, or append a new cell). -/
def writeH : List (Nat × mem_header) → Nat → mem_header → List (Nat × mem_header)
  | [], a, h => [(a, h)]
  | (b, g) :: rest, a, h => if b = a then (a, h) :: rest else (b, g) :: writeH rest a h

/-- Value read from an address that was never written. -/
def defaultHeader : mem_header := ⟨0, false, none, none⟩

/-- Read the header at address a. -/
def readH (mem : List (Nat × mem_header)) (a : Nat) : mem_header :=
  (lookupH mem a).getD defaultHeader

/-- Field assignment x->size = v. -/
def setSize (s : Heap) (a v : Nat) : Heap :=
  { s with mem := writeH s.mem a { readH s.mem a with size := v } }

/-- Field assignment x->free = v. -/
def setFree (s : Heap) (a : Nat) (v : Bool) : Heap :=
  { s with mem := writeH s.mem a { readH s.mem a with free := v } }

/-- Field assignment x->prev = v. -/
def setPrev (s : Heap) (a : Nat) (v : Option Nat) : Heap :=
  { s with mem := writeH s.mem a { readH s.mem a with prev := v } }

/-- Field assignment x->next = v. -/
def setNext (s : Heap) (a : Nat) (v : Option Nat) : Heap :=
  { s with mem := writeH s.mem a { readH s.mem a with next := v } }

/-- size_t subtraction x - y (operands already reduced, result mod 2^64). -/
def sub64 (x y : Nat) : Nat := (x + (W64 - y % W64)) % W64

/-- The cast (ptrdiff_t)x applied to a size_t value x. -/
def ptrdiff_cast (x : Nat) : Int := if x < 2 ^ 63 then (x : Int) else (x : Int) - (W64 : Int)

/-- Effect of a successful sbrk(delta) on the break. -/
def sbrk_move (brk : Nat) (delta : Int) : Nat := (((brk : Int) + delta).emod (W64 : Int)).toNat

/-- Padding added by malloc.c line 64:
(ALIGNMENT_WIDTH - (size + sizeof(mem_header))) % ALIGNMENT_WIDTH in size_t. -/
def mallocPad (n : Nat) : Nat :=
  sub64 ALIGNMENT_WIDTH ((n + header_size) % W64) % ALIGNMENT_WIDTH

/-- The effective payload size after the padding assignment size += ... -/
def effSize (n : Nat) : Nat := (n + mallocPad n) % W64

/-- Loop condition of the first-fit search (malloc.c line 75):
heap_ptr->free && heap_ptr->size >= size + sizeof(mem_header),
with req the already-reduced size + sizeof(mem_header). -/
def isFit (mem : List (Nat × mem_header)) (req a : Nat) : Bool :=
  (readH mem a).free && decide (req ≤ (readH mem a).size)

/-- The first-fit walk of malloc.c line 74, following next with fuel. -/
def findFitAux (mem : List (Nat × mem_header)) (req : Nat) : Option Nat → Nat → Option Nat
  | _, 0 => none
  | none, _ + 1 => none
  | some a, fuel + 1 =>
    if isFit mem req a then some a else findFitAux mem req (readH mem a).next fuel

/-- Addresses visited by a next-walk from o with the given fuel. -/
def chainAux (mem : List (Nat × mem_header)) : Option Nat → Nat → List Nat
  | _, 0 => []
  | none, _ + 1 => []
  | some a, fuel + 1 => a :: chainAux mem (readH mem a).next fuel

/-- The block directory: all addresses reached from head_ptr along next. -/
def chain (s : Heap) : List Nat := chainAux s.mem s.head (s.mem.length + 1)

/-- Heap growth amount, malloc.c lines 107-110: block_size = size +
sizeof(mem_header) - additional_space, rounded up to a PAGE_SIZE multiple. -/
def growAmount (size additional : Nat) : Nat :=
  let block_size := sub64 ((size + header_size) % W64) additional
  if block_size % PAGE_SIZE ≠ 0 then (block_size + (PAGE_SIZE - block_size % PAGE_SIZE)) % W64
  else block_size

/-- Successful first-fit branch of _malloc (malloc.c lines 75-96): split the
found block when it can hold another header, mark it used, advance tail_ptr
past the block when it was the tail and now has a successor, and return the
payload pointer. -/
def malloc_fit (s : Heap) (size a : Nat) : Heap × Option Nat :=
  let h := readH s.mem a
  let split := (size + 2 * header_size) % W64 < h.size
  let s1 :=
    if split then
      let nb := a + size + header_size
      let s' := { s with
        mem := writeH s.mem nb ⟨sub64 h.size ((size + header_size) % W64), true, some a, h.next⟩ }
      setNext s' a (some nb)
    else s
  let size1 := if split then size else h.size
  let s2 := setFree (setSize s1 a size1) a false
  let s3 :=
    if s2.tail = some a ∧ (readH s2.mem a).next ≠ none then
      { s2 with tail := (readH s2.mem a).next }
    else s2
  (s3, some (a + header_size))

/-- Heap extension path of _malloc (malloc.c lines 107-148): grow the heap by
a page-rounded amount (failing sbrk returns NULL with the state as is), carve
or reuse the block at the top, and either split off a free tail block from
the leftover space or absorb the leftover into the returned block.
t is the address held by tail_ptr when line 107 is reached. -/
def mallocGrow (s : Heap) (size additional : Nat) (heap_empty g : Bool) (t : Nat) :
    Heap × Option Nat :=
  let block_size := growAmount size additional
  if g = false then (s, none) else
  let s1 := { s with brk := sbrk_move s.brk (ptrdiff_cast block_size) }
  let st :=
    if heap_empty then (setPrev s1 t none, t)
    else if (readH s1.mem t).free = false then
      let na := t + (readH s1.mem t).size + header_size
      ({ setPrev (setNext s1 t (some na)) na (some t) with tail := some na }, na)
    else (s1, t)
  let s2 := st.1
  let t2 := st.2
  let s3 := setSize (setFree (setNext s2 t2 none) t2 false) t2 size
  let leftover := sub64 ((block_size + additional) % W64) ((size + header_size) % W64)
  let s4 :=
    if header_size < leftover then
      let nb := t2 + size + header_size
      let s' := { setPrev (setNext s3 t2 (some nb)) nb (some t2) with tail := some nb }
      setSize (setNext (setFree s' nb true) nb none) nb (leftover - header_size)
    else
      setSize s3 t2 ((size + leftover) % W64)
  (s4, some (t2 + header_size))

/-- _malloc from malloc.c. q tells whether the bootstrap sbrk(0) succeeds,
g whether the growing sbrk(block_size) succeeds. -/
def _malloc (s : Heap) (n : Nat) (q g : Bool) : Heap × Option Nat :=
  if n = 0 then (s, none) else
  let size := effSize n
  match s.head with
  | none =>
    if q = false then ({ s with head := some (W64 - 1), tail := some (W64 - 1) }, none)
    else mallocGrow { s with head := some s.brk, tail := some s.brk } size 0 true g s.brk
  | some _ =>
    match findFitAux s.mem ((size + header_size) % W64) s.head (s.mem.length + 1) with
    | some a => malloc_fit s size a
    | none =>
      let t := s.tail.getD 0
      let additional :=
        if (readH s.mem t).free then ((readH s.mem t).size + header_size) % W64 else 0
      mallocGrow s size additional false g t

/-- Truth of heap_ptr->next && heap_ptr->next->free. -/
def opt_free (mem : List (Nat × mem_header)) : Option Nat → Bool
  | some a => (readH mem a).free
  | none => false

/-- eat_next_block from malloc.c lines 194-203. -/
def eat_next_block (s : Heap) (a : Nat) : Heap :=
  let h := readH s.mem a
  let na := h.next.getD 0
  let nh := readH s.mem na
  let s1 := setNext (setSize s a ((h.size + nh.size + header_size) % W64)) a nh.next
  match nh.next with
  | some nn => setPrev s1 nn (some a)
  | none => s1

/-- Tail contraction of _free, malloc.c lines 177-189. -/
def free_contract (s : Heap) (a : Nat) : Heap :=
  let h := readH s.mem a
  if h.next = none ∧ PAGE_SIZE ≤ (h.size + header_size) % W64 then
    let leftover := ((h.size + header_size) % W64) % PAGE_SIZE
    let excess := (h.size + header_size) % W64 - leftover
    match h.prev with
    | none =>
      let nbrk := sbrk_move s.brk (-(ptrdiff_cast excess))
      { s with head := none, tail := none, brk := nbrk }
    | some pv =>
      let s1 := setNext (setSize s pv (((readH s.mem pv).size + leftover) % W64)) pv none
      { s1 with brk := sbrk_move s1.brk (-(ptrdiff_cast excess)) }
  else s

/-- Backward coalesce of _free (malloc.c lines 170-173): when prev exists and
is free, move header_ptr to it and eat the block in front; returns the new
state together with the address held by header_ptr afterwards. -/
def free_back (s : Heap) (a : Nat) : Heap × Nat :=
  match (readH s.mem a).prev with
  | some pv => if (readH s.mem pv).free then (eat_next_block s pv, pv) else (s, a)
  | none => (s, a)

/-- Body of _free after the early returns: forward coalesce, backward
coalesce, then tail contraction (malloc.c lines 165-189). -/
def free_body (s : Heap) (a : Nat) : Heap :=
  let s1 := if opt_free s.mem (readH s.mem a).next then eat_next_block s a else s
  free_contract (free_back s1 a).1 (free_back s1 a).2

/-- _free from malloc.c: NULL and already-free pointers are no-ops, otherwise
mark free and run the coalescing / contraction body. -/
def _free (s : Heap) (p : Nat) : Heap :=
  if p = 0 then s else
  let a := p - header_size
  if (readH s.mem a).free then s else
  free_body (setFree s a true) a

/-- The empty allocator over a zero-based break. -/
def heap0 : Heap := ⟨[], none, none, 0⟩

/-- State after _malloc(16) from the empty heap: one used block at 0, a free
tail block at 48. -/
def heapA : Heap := (_malloc heap0 16 true true).1

/-- State after a second _malloc(16): the free tail was split at 48 / 96. -/
def heapB : Heap := (_malloc heapA 16 true true).1

/-- State after freeing the second allocation (payload pointer 80). -/
def heapC2 : Heap := _free heapB 80

/-- First state of the split-with-successor run: _malloc(160) from empty. -/
def heapD1 : Heap := (_malloc heap0 160 true true).1

/-- Second allocation of 160 bytes (splits the free tail). -/
def heapD2 : Heap := (_malloc heapD1 160 true true).1

/-- The first block (payload 32) freed again: a free block with a successor. -/
def heapD3 : Heap := _free heapD2 32

/-- A small allocation that splits the free block at 0, whose successor at 192
is left with a stale prev pointer by the source. -/
def heapD4 : Heap := (_malloc heapD3 16 true true).1

/-- Harness run, first allocation: _malloc(312). -/
def c4_r1 : Heap × Option Nat := _malloc heap0 312 true true

/-- Harness run, second allocation: _malloc(4234). -/
def c4_r2 : Heap × Option Nat := _malloc c4_r1.1 4234 true true

/-- Harness run, third allocation: _malloc(40). -/
def c4_r3 : Heap × Option Nat := _malloc c4_r2.1 40 true true

/-- Harness run, fourth allocation: _malloc(33333). -/
def c4_r4 : Heap × Option Nat := _malloc c4_r3.1 33333 true true

/-- Harness run: release index 1. -/
def c4_f1 : Heap := _free c4_r4.1 (c4_r2.2.getD 0)

/-- Harness run: release index 0. -/
def c4_f2 : Heap := _free c4_f1 (c4_r1.2.getD 0)

/-- Harness run: release index 3. -/
def c4_f3 : Heap := _free c4_f2 (c4_r4.2.getD 0)

/-- Harness run: release index 2; the break must be back at its start. -/
def c4_final : Heap := _free c4_f3 (c4_r3.2.getD 0)


/-! Basic lemmas about the header store. -/

theorem lookupH_writeH_self (m : List (Nat × mem_header)) (a : Nat) (h : mem_header) :
    lookupH (writeH m a h) a = some h := by
  induction m with
  | nil => simp [writeH, lookupH]
  | cons x rest ih =>
    obtain ⟨b, g⟩ := x
    by_cases hba : b = a
    · simp [writeH, hba, lookupH]
    · simp [writeH, hba, lookupH, ih]

theorem lookupH_writeH_ne (m : List (Nat × mem_header)) (a b : Nat) (h : mem_header)
    (hne : b ≠ a) : lookupH (writeH m a h) b = lookupH m b := by
  induction m with
  | nil => simp [writeH, lookupH, Ne.symm hne]
  | cons x rest ih =>
    obtain ⟨c, g⟩ := x
    by_cases hca : c = a
    · subst hca
      simp [writeH, lookupH, Ne.symm hne]
    · by_cases hcb : c = b
      · subst hcb
        simp [writeH, hca, lookupH]
      · simp [writeH, hca, lookupH, hcb, ih]

theorem readH_writeH_self (m : List (Nat × mem_header)) (a : Nat) (h : mem_header) :
    readH (writeH m a h) a = h := by
  simp [readH, lookupH_writeH_self]

theorem readH_writeH_ne (m : List (Nat × mem_header)) (a b : Nat) (h : mem_header)
    (hne : b ≠ a) : readH (writeH m a h) b = readH m b := by
  simp [readH, lookupH_writeH_ne m a b h hne]

theorem readH_setSize (s : Heap) (a v b : Nat) :
    readH (setSize s a v).mem b =
      if b = a then { readH s.mem a with size := v } else readH s.mem b := by
  by_cases hba : b = a
  · subst hba; simp [setSize, readH_writeH_self]
  · simp [setSize, hba, readH_writeH_ne _ _ _ _ hba]

theorem readH_setFree (s : Heap) (a : Nat) (v : Bool) (b : Nat) :
    readH (setFree s a v).mem b =
      if b = a then { readH s.mem a with free := v } else readH s.mem b := by
  by_cases hba : b = a
  · subst hba; simp [setFree, readH_writeH_self]
  · simp [setFree, hba, readH_writeH_ne _ _ _ _ hba]

theorem readH_setPrev (s : Heap) (a : Nat) (v : Option Nat) (b : Nat) :
    readH (setPrev s a v).mem b =
      if b = a then { readH s.mem a with prev := v } else readH s.mem b := by
  by_cases hba : b = a
  · subst hba; simp [setPrev, readH_writeH_self]
  · simp [setPrev, hba, readH_writeH_ne _ _ _ _ hba]

theorem readH_setNext (s : Heap) (a : Nat) (v : Option Nat) (b : Nat) :
    readH (setNext s a v).mem b =
      if b = a then { readH s.mem a with next := v } else readH s.mem b := by
  by_cases hba : b = a
  · subst hba; simp [setNext, readH_writeH_self]
  · simp [setNext, hba, readH_writeH_ne _ _ _ _ hba]

/-! The free flag of any header is untouched by every state update of _free
that follows the initial header_ptr->free = true assignment. -/

theorem free_readH_setSize (s : Heap) (a v b : Nat) :
    (readH (setSize s a v).mem b).free = (readH s.mem b).free := by
  rw [readH_setSize]
  by_cases hba : b = a <;> simp [hba]

theorem free_readH_setPrev (s : Heap) (a : Nat) (v : Option Nat) (b : Nat) :
    (readH (setPrev s a v).mem b).free = (readH s.mem b).free := by
  rw [readH_setPrev]
  by_cases hba : b = a <;> simp [hba]

theorem free_readH_setNext (s : Heap) (a : Nat) (v : Option Nat) (b : Nat) :
    (readH (setNext s a v).mem b).free = (readH s.mem b).free := by
  rw [readH_setNext]
  by_cases hba : b = a <;> simp [hba]

theorem free_readH_setFree (s : Heap) (a : Nat) (v : Bool) (b : Nat) :
    (readH (setFree s a v).mem b).free =
      if b = a then v else (readH s.mem b).free := by
  rw [readH_setFree]
  by_cases hba : b = a <;> simp [hba]

theorem free_readH_eat (s : Heap) (a b : Nat) :
    (readH (eat_next_block s a).mem b).free = (readH s.mem b).free := by
  simp only [eat_next_block]
  split <;> simp [free_readH_setPrev, free_readH_setNext, free_readH_setSize]

theorem free_readH_contract (s : Heap) (a b : Nat) :
    (readH (free_contract s a).mem b).free = (readH s.mem b).free := by
  simp only [free_contract]
  split
  · split
    · simp [readH]
    · simp [free_readH_setNext, free_readH_setSize]
  · rfl

theorem free_readH_back (s : Heap) (a b : Nat) :
    (readH (free_back s a).1.mem b).free = (readH s.mem b).free := by
  simp only [free_back]
  split
  · split
    · simp [free_readH_eat]
    · rfl
  · rfl

theorem free_readH_body (s : Heap) (a b : Nat) :
    (readH (free_body s a).mem b).free = (readH s.mem b).free := by
  simp only [free_body]
  rw [free_readH_contract, free_readH_back]
  split <;> simp [free_readH_eat]

theorem free_flag_after_free (s : Heap) (p : Nat) (hp : ¬ p = 0)
    (hnf : (readH s.mem (p - header_size)).free = false) :
    (readH (_free s p).mem (p - header_size)).free = true := by
  simp [_free, hp, hnf, free_readH_body, free_readH_setFree]

theorem free_of_free_flag (s : Heap) (p : Nat)
    (hf : (readH s.mem (p - header_size)).free = true) : _free s p = s := by
  simp only [_free]
  split
  · rfl
  · simp [hf]

/-- Claim C8: _free of a null pointer, or of a pointer whose recovered header
is already marked free, changes no allocator state; releasing a previously
allocated pointer twice in a row equals releasing it once. -/
theorem claim_C8_free_noop_idempotent (s : Heap) (p : Nat)
    (hex : (lookupH s.mem (p - header_size)).isSome = true) :
    _free s 0 = s ∧
    ((readH s.mem (p - header_size)).free = true → _free s p = s) ∧
    _free (_free s p) p = _free s p := by
  refine ⟨by simp [_free], fun hf => free_of_free_flag s p hf, ?_⟩
  by_cases hp : p = 0
  · subst hp; simp [_free]
  · by_cases hf : (readH s.mem (p - header_size)).free = true
    · simp [free_of_free_flag s p hf]
    · exact free_of_free_flag _ p
        (free_flag_after_free s p hp (by simpa using hf))

/-! The first-fit walk is find? over the directory chain. -/

theorem findFitAux_eq_find? (mem : List (Nat × mem_header)) (req : Nat) :
    ∀ (fuel : Nat) (o : Option Nat),
      findFitAux mem req o fuel = (chainAux mem o fuel).find? (isFit mem req) := by
  intro fuel
  induction fuel with
  | zero => intro o; cases o <;> rfl
  | succ k ih =>
    intro o
    cases o with
    | none => rfl
    | some a =>
      by_cases hfit : isFit mem req a
      · simp [findFitAux, chainAux, hfit, List.find?_cons_of_pos]
      · simp [findFitAux, chainAux, hfit, List.find?_cons_of_neg, ih]

theorem find?_min_of_sorted {p : Nat → Bool} :
    ∀ {l : List Nat} {a : Nat}, l.Pairwise (· < ·) → l.find? p = some a →
      ∀ b ∈ l, p b = true → a ≤ b := by
  intro l
  induction l with
  | nil => intro a _ hf; simp [List.find?] at hf
  | cons x xs ih =>
    intro a hs hf b hb hpb
    obtain ⟨hx, hxs⟩ := List.pairwise_cons.mp hs
    by_cases hpx : p x = true
    · rw [List.find?_cons_of_pos _ hpx] at hf
      cases hf
      rcases List.mem_cons.mp hb with rfl | hb'
      · exact Nat.le_refl _
      · exact Nat.le_of_lt (hx b hb')
    · rw [List.find?_cons_of_neg _ hpx] at hf
      rcases List.mem_cons.mp hb with rfl | hb'
      · exact absurd hpb hpx
      · exact ih hxs hf b hb' hpb

theorem mem_ite_tail (c : Prop) [Decidable c] (s : Heap) (v : Option Nat) :
    (if c then { s with tail := v } else s).mem = s.mem := by
  split <;> rfl

/-- Reduction of _malloc to its successful first-fit branch. -/
theorem _malloc_at_fit (s : Heap) (n : Nat) (q g : Bool) (a h0 : Nat)
    (hn : ¬ n = 0) (hh : s.head = some h0)
    (hfind : findFitAux s.mem ((effSize n + header_size) % W64) s.head
      (s.mem.length + 1) = some a) :
    _malloc s n q g = malloc_fit s (effSize n) a := by
  rw [hh] at hfind
  simp only [_malloc, hn, if_false, hh, hfind]

/-- Behaviour of the successful first-fit branch on the two headers it
writes: the found block a and, in the split case, the inserted remainder. -/
theorem malloc_fit_spec (s : Heap) (size a : Nat) :
    (malloc_fit s size a).2 = some (a + header_size) ∧
    ((size + 2 * header_size) % W64 < (readH s.mem a).size →
      (readH (malloc_fit s size a).1.mem a).size = size ∧
      (readH (malloc_fit s size a).1.mem a).free = false ∧
      (readH (malloc_fit s size a).1.mem a).prev = (readH s.mem a).prev ∧
      (readH (malloc_fit s size a).1.mem a).next = some (a + size + header_size) ∧
      readH (malloc_fit s size a).1.mem (a + size + header_size) =
        ⟨sub64 (readH s.mem a).size ((size + header_size) % W64), true, some a,
          (readH s.mem a).next⟩) ∧
    (¬ (size + 2 * header_size) % W64 < (readH s.mem a).size →
      (readH (malloc_fit s size a).1.mem a).size = (readH s.mem a).size ∧
      (readH (malloc_fit s size a).1.mem a).free = false ∧
      (readH (malloc_fit s size a).1.mem a).prev = (readH s.mem a).prev ∧
      (readH (malloc_fit s size a).1.mem a).next = (readH s.mem a).next) ∧
    (∀ b, b ≠ a → b ≠ a + size + header_size →
      readH (malloc_fit s size a).1.mem b = readH s.mem b) := by
  have h32 : header_size = 32 := rfl
  have hna : ¬ a = a + size + header_size := by omega
  have han : ¬ (a + size + header_size) = a := by omega
  refine ⟨rfl, ?_, ?_, ?_⟩
  · intro hsp
    simp only [malloc_fit, if_pos hsp, mem_ite_tail, readH_setFree, readH_setSize,
      readH_setNext, if_pos rfl, readH_writeH_ne _ _ _ _ hna, readH_writeH_self, han,
      if_false]
    simp
  · intro hsp
    simp only [malloc_fit, if_neg hsp, mem_ite_tail, readH_setFree, readH_setSize,
      if_pos rfl]
    simp
  · intro b hba hbn
    simp only [malloc_fit, mem_ite_tail]
    split
    · simp only [readH_setFree, readH_setSize, readH_setNext, if_neg hba,
        readH_writeH_ne _ _ _ _ hbn]
    · simp only [readH_setFree, readH_setSize, if_neg hba]

/-- Claim C5: on a non-empty heap whose first-fit walk finds a block a and
whose directory chain is sorted by address, _malloc returns the payload of a,
a is free, large enough, and the lowest-address fitting block in the
directory; the block is split, with a free remainder of the old size minus
the effective size minus the header footprint inserted right after it,
exactly when the old size exceeds the effective size plus two header
footprints, and otherwise the whole block is consumed with its full old size
kept; nothing outside the two written headers changes. -/
theorem claim_C5_first_fit_and_split (s : Heap) (n : Nat) (q g : Bool) (a h0 : Nat)
    (hn : ¬ n = 0) (hh : s.head = some h0)
    (hfind : findFitAux s.mem ((effSize n + header_size) % W64) s.head
      (s.mem.length + 1) = some a)
    (hsort : (chain s).Pairwise (· < ·)) :
    (_malloc s n q g).2 = some (a + header_size) ∧
    a ∈ chain s ∧
    (readH s.mem a).free = true ∧
    (effSize n + header_size) % W64 ≤ (readH s.mem a).size ∧
    (∀ b ∈ chain s, isFit s.mem ((effSize n + header_size) % W64) b = true → a ≤ b) ∧
    ((effSize n + 2 * header_size) % W64 < (readH s.mem a).size →
      (readH (_malloc s n q g).1.mem a).size = effSize n ∧
      (readH (_malloc s n q g).1.mem a).free = false ∧
      (readH (_malloc s n q g).1.mem a).prev = (readH s.mem a).prev ∧
      (readH (_malloc s n q g).1.mem a).next = some (a + effSize n + header_size) ∧
      readH (_malloc s n q g).1.mem (a + effSize n + header_size) =
        ⟨sub64 (readH s.mem a).size ((effSize n + header_size) % W64), true, some a,
          (readH s.mem a).next⟩) ∧
    (¬ (effSize n + 2 * header_size) % W64 < (readH s.mem a).size →
      (readH (_malloc s n q g).1.mem a).size = (readH s.mem a).size ∧
      (readH (_malloc s n q g).1.mem a).free = false ∧
      (readH (_malloc s n q g).1.mem a).prev = (readH s.mem a).prev ∧
      (readH (_malloc s n q g).1.mem a).next = (readH s.mem a).next) ∧
    (∀ b, b ≠ a → b ≠ a + effSize n + header_size →
      readH (_malloc s n q g).1.mem b = readH s.mem b) := by
  have hfc : (chain s).find? (isFit s.mem ((effSize n + header_size) % W64)) = some a := by
    rw [chain, ← findFitAux_eq_find?]
    exact hfind
  have hred := _malloc_at_fit s n q g a h0 hn hh hfind
  have hfit := List.find?_some hfc
  have hspec := malloc_fit_spec s (effSize n) a
  rw [isFit, Bool.and_eq_true, decide_eq_true_eq] at hfit
  rw [hred]
  exact ⟨hspec.1, List.mem_of_find?_eq_some hfc, hfit.1, hfit.2,
    find?_min_of_sorted hsort hfc, hspec.2.1, hspec.2.2.1, hspec.2.2.2⟩

/-- Witness for claim C5: in heapA the walk selects the free tail block at
48 for a request of 16 bytes and splits it at 96. -/
theorem claim_C5_witness :
    (_malloc heapA 16 true true).2 = some (48 + header_size) ∧
    (readH (_malloc heapA 16 true true).1.mem 48).size = effSize 16 ∧
    readH (_malloc heapA 16 true true).1.mem (48 + effSize 16 + header_size) =
      ⟨sub64 (readH heapA.mem 48).size ((effSize 16 + header_size) % W64), true,
        some 48, (readH heapA.mem 48).next⟩ := by
  have h := claim_C5_first_fit_and_split heapA 16 true true 48 0 (by decide)
    (by decide) (by decide) (by decide)
  have hs := h.2.2.2.2.2.1 (by decide)
  exact ⟨h.1, hs.1, hs.2.2.2.2⟩

/-- Claim C1: refuted on the code. After the run _malloc(160), _malloc(160),
_free(first), _malloc(16), the last call splits the free block at 0 whose
successor is the block at 192; the inserted remainder at 48 gets next = 192,
but the successor's prev still points at 0, so the back-link invariant
b.next.prev == b fails inside the directory [0, 48, 192, 384]. -/
theorem claim_C1_split_backlink_missing :
    chain heapD4 = [0, 48, 192, 384] ∧
    (readH heapD4.mem 48).next = some 192 ∧
    (readH heapD4.mem 192).prev = some 0 ∧
    (readH heapD4.mem 192).prev ≠ some 48 := by decide

/-- Claim C2: refuted on the code. Freeing the block at 48 in heapB
forward-coalesces the free tail block at 96 into it, but _free never moves
tail_ptr: afterwards the directory is [0, 48] with 48 the last block, while
tail_ptr still holds 96, which is not reachable from head via next. -/
theorem claim_C2_stale_tail_after_free :
    heapC2.tail = some 96 ∧
    chain heapC2 = [0, 48] ∧
    (readH heapC2.mem 48).next = none ∧
    96 ∉ chain heapC2 := by decide

/-- Claim C3: refuted on the code at bootstrap. When the first-ever sbrk(0)
fails, head_ptr and tail_ptr have already been assigned the (void *)-1
sentinel before the check; when sbrk(0) succeeds but the growing sbrk fails,
they are left holding the old break. Both leave the allocator changed. -/
theorem claim_C3_bootstrap_failure_clobbers_state :
    _malloc heap0 16 false true =
      ({ heap0 with head := some (W64 - 1), tail := some (W64 - 1) }, none) ∧
    _malloc heap0 16 true false =
      ({ heap0 with head := some 0, tail := some 0 }, none) ∧
    ({ heap0 with head := some (W64 - 1), tail := some (W64 - 1) } : Heap) ≠ heap0 ∧
    ({ heap0 with head := some 0, tail := some 0 } : Heap) ≠ heap0 := by decide

/-- Claim C4: the harness sequence. All four allocations succeed, and after
releasing them in the order 1, 0, 3, 2 the program break is back at its
initial value (heap0.brk = 0), with the allocator empty again. -/
theorem claim_C4_harness_break_restored :
    c4_r1.2 = some 32 ∧ c4_r2.2 = some 384 ∧
    c4_r3.2 = some 4656 ∧ c4_r4.2 = some 4736 ∧
    heap0.brk = 0 ∧ c4_final.brk = 0 ∧
    c4_final.head = none ∧ c4_final.tail = none := by decide

/-- Claim C7: refuted on the code. From heapA (one used block at 0, free tail
block at 48, tail_ptr = 48), _malloc(16) succeeds with payload 80 and an
immediate _free(80) puts every directory header back, but tail_ptr is left
at 96 (the absorbed split remainder) instead of 48. The break is unchanged,
so no tail-contraction threshold was crossed. -/
theorem claim_C7_malloc_free_roundtrip_not_restored :
    (_malloc heapA 16 true true).2 = some 80 ∧
    heapA.tail = some 48 ∧
    (_free (_malloc heapA 16 true true).1 80).tail = some 96 ∧
    (_free (_malloc heapA 16 true true).1 80).brk = heapA.brk := by decide

/-- Claim C9: refuted on the code. The request 2^64 - 8 is nonzero, but the
padding addition wraps the effective size to 0; on the empty heap _malloc
then succeeds and installs a directory block of size 0 at address 0. -/
theorem claim_C9_zero_size_block_on_wrap :
    effSize (W64 - 8) = 0 ∧
    (_malloc heap0 (W64 - 8) true true).2 = some 32 ∧
    (_malloc heap0 (W64 - 8) true true).1.head = some 0 ∧
    readH (_malloc heap0 (W64 - 8) true true).1.mem 0 =
      ⟨0, false, none, some 32⟩ := by decide

/-- Claim C10, counterexample: from heapA, the request 2^63 has effective
size 2^63, the first-fit walk fails, the free tail at 48 yields
additional_space = 4048, and the page-rounded growth amount is 2^63 — whose
(ptrdiff_t) cast is the negative delta -2^63 passed to sbrk. -/
theorem claim_C10_counterexample :
    findFitAux heapA.mem ((effSize (2 ^ 63) + header_size) % W64) heapA.head
      (heapA.mem.length + 1) = none ∧
    (if (readH heapA.mem (heapA.tail.getD 0)).free then
        ((readH heapA.mem (heapA.tail.getD 0)).size + header_size) % W64
      else 0) = 4048 ∧
    growAmount (effSize (2 ^ 63)) 4048 = 2 ^ 63 ∧
    ptrdiff_cast (growAmount (effSize (2 ^ 63)) 4048) = -(2 ^ 63) ∧
    ptrdiff_cast (growAmount (effSize (2 ^ 63)) 4048) < 0 := by decide

/-- Claim C6, counterexample: for n = 2^64 - 8 the smallest valid padding p
is 8 and n + p = 2^64, but the effective size computed by _malloc is the
wrapped size_t value 0, not n + p. -/
theorem claim_C6_counterexample :
    mallocPad (W64 - 8) = 8 ∧
    ((W64 - 8) + header_size + 8) % ALIGNMENT_WIDTH = 0 ∧
    (∀ q < 8, ¬ ((W64 - 8) + header_size + q) % ALIGNMENT_WIDTH = 0) ∧
    effSize (W64 - 8) = 0 ∧
    (W64 - 8) + 8 ≠ 0 := by decide

/-- Claim C6 as amended: for every request 0 < n < 2^64 the unsigned C
expression (ALIGNMENT_WIDTH - (n + sizeof(mem_header))) % ALIGNMENT_WIDTH is
exactly the smallest non-negative p making n + header_size + p divisible by
the alignment width, and the effective payload size is (n + p) mod 2^64 —
equal to n + p itself whenever that sum does not wrap. -/
theorem claim_C6_padding (n : Nat) (h1 : 0 < n) (h2 : n < W64) :
    (n + header_size + mallocPad n) % ALIGNMENT_WIDTH = 0 ∧
    (∀ q, (n + header_size + q) % ALIGNMENT_WIDTH = 0 → mallocPad n ≤ q) ∧
    effSize n = (n + mallocPad n) % W64 ∧
    (n + mallocPad n < W64 → effSize n = n + mallocPad n) := by
  refine ⟨?_, ?_, rfl, fun h => Nat.mod_eq_of_lt h⟩
  · simp only [mallocPad, sub64, W64, header_size, ALIGNMENT_WIDTH] at *
    norm_num at *
    omega
  · intro q hq
    simp only [mallocPad, sub64, W64, header_size, ALIGNMENT_WIDTH] at *
    norm_num at *
    omega

/-- Witness for claim C6 at the harness request 312 (padding 8, effective
size 320). -/
theorem claim_C6_witness :
    (0 < 312 ∧ 312 < W64) ∧
    ((312 + header_size + mallocPad 312) % ALIGNMENT_WIDTH = 0 ∧
      (∀ q, (312 + header_size + q) % ALIGNMENT_WIDTH = 0 → mallocPad 312 ≤ q) ∧
      effSize 312 = (312 + mallocPad 312) % W64 ∧
      (312 + mallocPad 312 < W64 → effSize 312 = 312 + mallocPad 312)) :=
  ⟨⟨by decide, by decide⟩, claim_C6_padding 312 (by decide) (by decide)⟩

/-- Claim C10 as amended: the page-rounded growth amount is always a multiple
of PAGE_SIZE as a size_t, and when a free tail's credit exceeds the needed
size + header footprint by less than a page the wrapped amount rounds to
exactly 0; but the amount is a non-negative sbrk delta only below 2^63 (the
counterexample shows a reachable negative delta). -/
theorem claim_C10_grow_amount (size additional : Nat) (hadd : additional < W64) :
    growAmount size additional % PAGE_SIZE = 0 ∧
    ((size + header_size) % W64 < additional →
      additional - (size + header_size) % W64 < PAGE_SIZE →
      growAmount size additional = 0) ∧
    (growAmount size additional < 2 ^ 63 →
      0 ≤ ptrdiff_cast (growAmount size additional)) := by
  refine ⟨?_, ?_, ?_⟩
  · simp only [growAmount, sub64, W64, header_size, PAGE_SIZE] at *
    norm_num at *
    split <;> omega
  · intro ha hb
    simp only [growAmount, sub64, W64, header_size, PAGE_SIZE] at *
    norm_num at *
    split <;> omega
  · intro h
    simp only [ptrdiff_cast, if_pos h]
    exact Int.natCast_nonneg _

/-- Witness for claim C10 at the reachable values size = 16,
additional_space = 4048 (free tail of size 4016): the wrapped growth amount
page-rounds to 0. -/
theorem claim_C10_witness :
    growAmount 16 4048 % PAGE_SIZE = 0 ∧
    ((16 + header_size) % W64 < 4048 →
      4048 - (16 + header_size) % W64 < PAGE_SIZE →
      growAmount 16 4048 = 0) ∧
    (growAmount 16 4048 < 2 ^ 63 → 0 ≤ ptrdiff_cast (growAmount 16 4048)) :=
  claim_C10_grow_amount 16 4048 (by decide)

/-- Witness for claim C8 at a concrete allocated pointer: the second block of
heapB, payload pointer 80. -/
theorem claim_C8_witness :
    (lookupH heapB.mem (80 - header_size)).isSome = true ∧
    (_free heapB 0 = heapB ∧
      ((readH heapB.mem (80 - header_size)).free = true → _free heapB 80 = heapB) ∧
      _free (_free heapB 80) 80 = _free heapB 80) :=
  ⟨by decide, claim_C8_free_noop_idempotent heapB 80 (by decide)⟩

end Malloc
